import Mathlib

/-!
Verification development for the WealthOS workflow engine
(`backend/app/workflows/base.py`).

The embedding models:
* Python context values (primitives, lists, dicts, Pydantic models,
  pandas Series / DataFrames) as the inductive type `Value`;
* the context codec `BaseWorkflow._serialize_context` /
  `BaseWorkflow._deserialize_context`;
* the engine (`_create_step_node`, `build_graph` + `ainvoke` as a fold over
  the step list, `execute`);
* `TransformStep.execute` and the `create_retry_step` retry loop.

Python exceptions are modelled with `Except String`; a `.error e` value
corresponds to an exception whose `str()` is `e`.  Timestamps are `Nat`,
floats that only pass through arithmetic of the form `(k / n) * 100` are
modelled as `ℚ` (both sides of every claim compute the same expression, so
the comparison is representation independent).
-/

/-- Python primitive scalars as they occur in workflow contexts
(`None`, `bool`, `int`, `str`, `float`). -/
inductive Prim where
  | pnone
  | pbool (b : Bool)
  | pint (n : Int)
  | pstr (s : String)
  | pfloat (q : ℚ)
deriving DecidableEq, Repr

/-- A Python value stored in a workflow context:
* `prim` — a primitive scalar;
* `vlist` — a Python `list`;
* `vdict` — a Python `dict` with string keys (insertion ordered);
* `model` — a Pydantic `BaseModel` instance: class name
  (`__class__.__name__`, never containing a dot), module name
  (`__class__.__module__`) and its field mapping.  Pydantic's
  `value.dict()` / `model_class(**data)` pair is modelled as storing and
  retrieving the field mapping;
* `series` — a `pandas.Series` (its `values.tolist()`, `index.tolist()`
  and `name`);
* `frame` — a `pandas.DataFrame` (its `values.tolist()` row lists,
  `columns.tolist()` and `index.tolist()`). -/
inductive Value where
  | prim (p : Prim)
  | vlist (items : List Value)
  | vdict (entries : List (String × Value))
  | model (tyName modName : String) (fields : List (String × Value))
  | series (values : List Value) (index : List Value) (name : Value)
  | frame (values : List (List Value)) (columns : List Value) (index : List Value)
deriving Repr

/-- Python `dict` key lookup (`k in d` / `d[k]`) on an association list. -/
def lookupKey (entries : List (String × Value)) (k : String) : Option Value :=
  match entries with
  | [] => none
  | (k', v) :: tl => if k' = k then some v else lookupKey tl k

/-- Python `d[k] = v`: replace the value in place if the key exists,
otherwise append the new key at the end (insertion order). -/
def setKey (entries : List (String × Value)) (k : String) (v : Value) :
    List (String × Value) :=
  match entries with
  | [] => [(k, v)]
  | (k', v') :: tl => if k' = k then (k, v) :: tl else (k', v') :: setKey tl k v

/-- Python `old.update(new)`: assign every key of `new` into `old`, in order. -/
def pyDictUpdate (old new : List (String × Value)) : List (String × Value) :=
  new.foldl (fun acc kv => setKey acc kv.1 kv.2) old

mutual

/-- `serialize_value` from `BaseWorkflow._serialize_context`:
* a `BaseModel` becomes `{"_type": cls name, "_module": cls module,
  "_data": value.dict()}` (the data is **not** serialized recursively);
* a `pandas.Series` becomes `{"_type": "pandas.Series", "_data":
  {"values": ..., "index": ..., "name": ...}}`;
* a `pandas.DataFrame` becomes `{"_type": "pandas.DataFrame", "_data":
  {"values": ..., "columns": ..., "index": ...}}`;
* dicts and lists are serialized recursively, primitives pass through. -/
def serializeValue : Value → Value
  | .prim p => .prim p
  | .vlist items => .vlist (serializeList items)
  | .vdict entries => .vdict (serializeEntries entries)
  | .model t m fields =>
      .vdict [("_type", .prim (.pstr t)), ("_module", .prim (.pstr m)),
              ("_data", .vdict fields)]
  | .series xs idx nm =>
      .vdict [("_type", .prim (.pstr "pandas.Series")),
              ("_data", .vdict [("values", .vlist xs), ("index", .vlist idx),
                                ("name", nm)])]
  | .frame rows cols idx =>
      .vdict [("_type", .prim (.pstr "pandas.DataFrame")),
              ("_data", .vdict [("values", .vlist (rows.map Value.vlist)),
                                ("columns", .vlist cols),
                                ("index", .vlist idx)])]

/-- `[serialize_value(item) for item in value]`. -/
def serializeList : List Value → List Value
  | [] => []
  | v :: tl => serializeValue v :: serializeList tl

/-- `{k: serialize_value(v) for k, v in value.items()}`. -/
def serializeEntries : List (String × Value) → List (String × Value)
  | [] => []
  | (k, v) :: tl => (k, serializeValue v) :: serializeEntries tl

end

/-- `BaseWorkflow._serialize_context`: serialize every value of the context. -/
def serializeContext (ctx : List (String × Value)) : List (String × Value) :=
  ctx.map fun kv => (kv.1, serializeValue kv.2)

/-- Reconstruction `pd.Series(data=obj_data["values"], index=obj_data["index"],
name=obj_data["name"])`.  A missing key raises `KeyError` (modelled as
`.error`); the serializer only ever produces list-shaped payloads, so the
embedding restricts reconstruction to that shape. -/
def decodeSeries (data : Value) : Except String Value :=
  match data with
  | .vdict entries =>
      match lookupKey entries "values", lookupKey entries "index",
            lookupKey entries "name" with
      | some (.vlist xs), some (.vlist idx), some nm => .ok (.series xs idx nm)
      | _, _, _ => .error "KeyError: malformed pandas.Series payload"
  | _ => .error "TypeError: pandas.Series payload is not a mapping"

/-- Helper: a list of rows, each of which must itself be a list. -/
def rowsOf : List Value → Option (List (List Value))
  | [] => some []
  | .vlist r :: tl => (rowsOf tl).map (r :: ·)
  | _ :: _ => none

/-- Reconstruction `pd.DataFrame(data=obj_data["values"],
columns=obj_data["columns"], index=obj_data["index"])`, analogous to
`decodeSeries`. -/
def decodeFrame (data : Value) : Except String Value :=
  match data with
  | .vdict entries =>
      match lookupKey entries "values", lookupKey entries "columns",
            lookupKey entries "index" with
      | some (.vlist rows), some (.vlist cols), some (.vlist idx) =>
          match rowsOf rows with
          | some rs => .ok (.frame rs cols idx)
          | none => .error "TypeError: malformed pandas.DataFrame rows"
      | _, _, _ => .error "KeyError: malformed pandas.DataFrame payload"
  | _ => .error "TypeError: pandas.DataFrame payload is not a mapping"

/-- `sizeOf` bound for values found by `lookupKey`. -/
theorem sizeOf_of_lookupKey {entries : List (String × Value)} {k : String}
    {v : Value} (h : lookupKey entries k = some v) : sizeOf v < sizeOf entries := by
  induction entries with
  | nil => simp [lookupKey] at h
  | cons kv tl ih =>
    obtain ⟨k', v'⟩ := kv
    rw [lookupKey] at h
    split at h
    · cases h
      simp
      omega
    · have := ih h
      simp
      omega

mutual

/-- `deserialize_value` from `BaseWorkflow._deserialize_context`, with the
resolution environment `env` listing the `(module, class name)` pairs that
`importlib.import_module` + `getattr` resolve to a `BaseModel` subclass.
A dict carrying both `"_type"` and `"_data"` keys is treated as a tagged
envelope:
* `"pandas.Series"` / `"pandas.DataFrame"` envelopes are reconstructed
  directly;
* otherwise, when a `"_module"` key is present and resolution succeeds the
  model is rebuilt from `_data` (`model_class(**obj_data)`); a resolution
  failure (`ImportError`/`AttributeError`) is caught, logged, and decoding
  falls back to deserializing `_data` recursively;
* a non-string `"_module"` or `"_type"` makes `import_module` / `getattr`
  raise `TypeError`, which nothing catches.
Other dicts and lists are deserialized recursively; anything else (including
raw model / Series / DataFrame objects) passes through unchanged. -/
def deserializeValue (env : List (String × String)) : Value → Except String Value
  | .prim p => .ok (.prim p)
  | .vlist items => (deserializeList env items).map Value.vlist
  | .vdict entries =>
      match lookupKey entries "_type", h2 : lookupKey entries "_data" with
      | some ty, some data =>
          -- `obj_type == "pandas.Series"` only succeeds when obj_type is
          -- that string, so the comparisons are folded into the match on ty
          match ty with
          | Value.prim (Prim.pstr t) =>
              if t = "pandas.Series" then decodeSeries data
              else if t = "pandas.DataFrame" then decodeFrame data
              else
                match lookupKey entries "_module" with
                | some (Value.prim (Prim.pstr m)) =>
                    if (m, t) ∈ env then
                      match data with
                      | Value.vdict fields => .ok (Value.model t m fields)
                      | _ => .error "TypeError: argument after ** must be a mapping"
                    else
                      -- warning logged, fall through to the recursive fallback
                      deserializeValue env data
                | some _ => .error "TypeError: the module argument must be a str"
                | none => deserializeValue env data
          | _ =>
              -- a non-string type tag fails every == check; `getattr` with a
              -- non-string name then raises TypeError, uncaught, unless no
              -- "_module" key is present and the fallback applies
              match lookupKey entries "_module" with
              | some (Value.prim (Prim.pstr _)) =>
                  .error "TypeError: attribute name must be string"
              | some _ => .error "TypeError: the module argument must be a str"
              | none => deserializeValue env data
      | _, _ => (deserializeEntries env entries).map Value.vdict
  | .model t m fields => .ok (.model t m fields)
  | .series xs idx nm => .ok (.series xs idx nm)
  | .frame rows cols idx => .ok (.frame rows cols idx)
termination_by v => sizeOf v
decreasing_by
  all_goals simp_wf
  all_goals first
    | omega
    | (have hsz := sizeOf_of_lookupKey h2; omega)

/-- `[deserialize_value(item) for item in value]`. -/
def deserializeList (env : List (String × String)) :
    List Value → Except String (List Value)
  | [] => .ok []
  | v :: tl => do
      let v' ← deserializeValue env v
      let tl' ← deserializeList env tl
      .ok (v' :: tl')
termination_by l => sizeOf l
decreasing_by
  all_goals simp_wf
  all_goals omega

/-- `{k: deserialize_value(v) for k, v in value.items()}`. -/
def deserializeEntries (env : List (String × String)) :
    List (String × Value) → Except String (List (String × Value))
  | [] => .ok []
  | (k, v) :: tl => do
      let v' ← deserializeValue env v
      let tl' ← deserializeEntries env tl
      .ok ((k, v') :: tl')
termination_by l => sizeOf l
decreasing_by
  all_goals simp_wf
  all_goals omega

end

/-- `BaseWorkflow._deserialize_context`: deserialize every value of the
context in order; a raised exception propagates. -/
def deserializeContext (env : List (String × String)) :
    List (String × Value) → Except String (List (String × Value))
  | [] => .ok []
  | (k, v) :: tl => do
      let v' ← deserializeValue env v
      let tl' ← deserializeContext env tl
      .ok ((k, v') :: tl')

mutual

/-- No dict reachable through plain dicts and lists carries both reserved
envelope keys `"_type"` and `"_data"` (such a dict would be mistaken for a
tagged envelope by the decoder). -/
def noReservedKeys : Value → Bool
  | .prim _ => true
  | .vlist items => noReservedList items
  | .vdict entries =>
      (!((lookupKey entries "_type").isSome && (lookupKey entries "_data").isSome))
        && noReservedEntries entries
  | .model _ _ _ => true
  | .series _ _ _ => true
  | .frame _ _ _ => true

/-- `noReservedKeys` over the items of a list. -/
def noReservedList : List Value → Bool
  | [] => true
  | v :: tl => noReservedKeys v && noReservedList tl

/-- `noReservedKeys` over the values of a dict. -/
def noReservedEntries : List (String × Value) → Bool
  | [] => true
  | (_, v) :: tl => noReservedKeys v && noReservedEntries tl

end

mutual

/-- The supported shapes for which the codec round-trips: primitives, models
whose class resolves in `env` (class `__name__`s never contain a dot, so they
are distinct from the two pandas tags), Series, DataFrames, and nested
lists/dicts of these whose plain dicts avoid carrying both reserved keys. -/
def supportedValue (env : List (String × String)) : Value → Bool
  | .prim _ => true
  | .vlist items => supportedList env items
  | .vdict entries =>
      (!((lookupKey entries "_type").isSome && (lookupKey entries "_data").isSome))
        && supportedEntries env entries
  | .model t m _ =>
      decide ((m, t) ∈ env) && !(t = "pandas.Series") && !(t = "pandas.DataFrame")
  | .series _ _ _ => true
  | .frame _ _ _ => true

/-- `supportedValue` over the items of a list. -/
def supportedList (env : List (String × String)) : List Value → Bool
  | [] => true
  | v :: tl => supportedValue env v && supportedList env tl

/-- `supportedValue` over the values of a dict. -/
def supportedEntries (env : List (String × String)) : List (String × Value) → Bool
  | [] => true
  | (_, v) :: tl => supportedValue env v && supportedEntries env tl

end

/-- Serialization keeps dict keys and serializes the values. -/
theorem lookupKey_serializeEntries (entries : List (String × Value)) (k : String) :
    lookupKey (serializeEntries entries) k = (lookupKey entries k).map serializeValue := by
  induction entries with
  | nil => simp [serializeEntries, lookupKey]
  | cons kv tl ih =>
    obtain ⟨k', v'⟩ := kv
    rw [serializeEntries, lookupKey, lookupKey]
    split
    · rfl
    · exact ih

/-- Deserializing a list whose items all deserialize to themselves. -/
theorem deserializeList_id {env : List (String × String)} :
    ∀ {items : List Value}, (∀ v ∈ items, deserializeValue env v = .ok v) →
      deserializeList env items = .ok items := by
  intro items h
  induction items with
  | nil => rw [deserializeList]
  | cons v tl ih =>
    rw [deserializeList]
    rw [h v (by simp), ih fun w hw => h w (by simp [hw])]
    rfl

/-- Deserializing a dict whose values all deserialize to themselves. -/
theorem deserializeEntries_id {env : List (String × String)} :
    ∀ {entries : List (String × Value)},
      (∀ kv ∈ entries, deserializeValue env kv.2 = .ok kv.2) →
      deserializeEntries env entries = .ok entries := by
  intro entries h
  induction entries with
  | nil => rw [deserializeEntries]
  | cons kv tl ih =>
    obtain ⟨k, v⟩ := kv
    rw [deserializeEntries]
    rw [h (k, v) (by simp), ih fun w hw => h w (by simp [hw])]
    rfl

/-- An item of a reserved-key-free list is reserved-key free. -/
theorem noReservedList_mem {items : List Value} {v : Value}
    (h : noReservedList items = true) (hv : v ∈ items) :
    noReservedKeys v = true := by
  induction items with
  | nil => cases hv
  | cons x tl ih =>
    rw [noReservedList, Bool.and_eq_true] at h
    rcases List.mem_cons.mp hv with hEq | hMem
    · subst hEq; exact h.1
    · exact ih h.2 hMem

/-- A value of a reserved-key-free dict is reserved-key free. -/
theorem noReservedEntries_mem {entries : List (String × Value)}
    {kv : String × Value} (h : noReservedEntries entries = true)
    (hv : kv ∈ entries) : noReservedKeys kv.2 = true := by
  induction entries with
  | nil => cases hv
  | cons x tl ih =>
    obtain ⟨k, w⟩ := x
    rw [noReservedEntries, Bool.and_eq_true] at h
    rcases List.mem_cons.mp hv with hEq | hMem
    · subst hEq; exact h.1
    · exact ih h.2 hMem

/-- Values free of reserved-key collisions pass through the decoder
unchanged (the decoder only transforms tagged envelopes). -/
theorem deserializeValue_of_noReserved (env : List (String × String)) :
    ∀ v, noReservedKeys v = true → deserializeValue env v = .ok v := by
  have main : ∀ n v, sizeOf v ≤ n → noReservedKeys v = true →
      deserializeValue env v = .ok v := by
    intro n
    induction n with
    | zero => intro v hv; cases v <;> simp at hv
    | succ n ih =>
      intro v hv hr
      cases v with
      | prim p => rw [deserializeValue]
      | model t m fields => rw [deserializeValue]
      | series xs idx nm => rw [deserializeValue]
      | frame rows cols idx => rw [deserializeValue]
      | vlist items =>
        rw [deserializeValue]
        rw [deserializeList_id]
        · rfl
        · intro w hw
          have h1 := List.sizeOf_lt_of_mem hw
          have h2s : sizeOf (Value.vlist items) = 1 + sizeOf items := by simp
          refine ih w (by omega) ?_
          rw [noReservedKeys] at hr
          exact noReservedList_mem hr hw
      | vdict entries =>
        rw [noReservedKeys, Bool.and_eq_true] at hr
        obtain ⟨hkeys, hentries⟩ := hr
        have hok : deserializeEntries env entries = .ok entries := by
          refine deserializeEntries_id ?_
          intro kv hkv
          have h1 := List.sizeOf_lt_of_mem hkv
          obtain ⟨k, w⟩ := kv
          have h2s : sizeOf (Value.vdict entries) = 1 + sizeOf entries := by simp
          have h3s : sizeOf (k, w) = 1 + sizeOf k + sizeOf w := by simp
          refine ih w (by omega) ?_
          exact noReservedEntries_mem hentries hkv
        rw [deserializeValue]
        split
        · rename_i ty data hA hB
          rw [hA, hB] at hkeys
          simp at hkeys
        · rw [hok]; rfl
  intro v
  exact main (sizeOf v) v le_rfl

/-- An item of a supported list is supported. -/
theorem supportedList_mem {env : List (String × String)} {items : List Value}
    {v : Value} (h : supportedList env items = true) (hv : v ∈ items) :
    supportedValue env v = true := by
  induction items with
  | nil => cases hv
  | cons x tl ih =>
    rw [supportedList, Bool.and_eq_true] at h
    rcases List.mem_cons.mp hv with hEq | hMem
    · subst hEq; exact h.1
    · exact ih h.2 hMem

/-- A value of a supported dict is supported. -/
theorem supportedEntries_mem {env : List (String × String)}
    {entries : List (String × Value)} {kv : String × Value}
    (h : supportedEntries env entries = true) (hv : kv ∈ entries) :
    supportedValue env kv.2 = true := by
  induction entries with
  | nil => cases hv
  | cons x tl ih =>
    obtain ⟨k, w⟩ := x
    rw [supportedEntries, Bool.and_eq_true] at h
    rcases List.mem_cons.mp hv with hEq | hMem
    · subst hEq; exact h.1
    · exact ih h.2 hMem

/-- Deserializing a serialized list whose items all round-trip. -/
theorem deserializeList_roundtrip {env : List (String × String)} :
    ∀ {items : List Value},
      (∀ v ∈ items, deserializeValue env (serializeValue v) = .ok v) →
      deserializeList env (serializeList items) = .ok items := by
  intro items h
  induction items with
  | nil => rw [serializeList, deserializeList]
  | cons v tl ih =>
    rw [serializeList, deserializeList]
    rw [h v (by simp), ih fun w hw => h w (by simp [hw])]
    rfl

/-- Deserializing a serialized dict whose values all round-trip. -/
theorem deserializeEntries_roundtrip {env : List (String × String)} :
    ∀ {entries : List (String × Value)},
      (∀ kv ∈ entries, deserializeValue env (serializeValue kv.2) = .ok kv.2) →
      deserializeEntries env (serializeEntries entries) = .ok entries := by
  intro entries h
  induction entries with
  | nil => rw [serializeEntries, deserializeEntries]
  | cons kv tl ih =>
    obtain ⟨k, v⟩ := kv
    rw [serializeEntries, deserializeEntries]
    rw [h (k, v) (by simp), ih fun w hw => h w (by simp [hw])]
    rfl

/-- Rows injected by the serializer are recovered exactly. -/
theorem rowsOf_map_vlist (rows : List (List Value)) :
    rowsOf (rows.map Value.vlist) = some rows := by
  induction rows with
  | nil => rfl
  | cons r tl ih => simp [rowsOf, ih]

/-- Decoding the envelope the serializer produces for a model whose class
resolves to a `BaseModel` subclass rebuilds the model. -/
theorem deserialize_model_envelope (env : List (String × String))
    (t m : String) (fields : List (String × Value)) (hmem : (m, t) ∈ env)
    (h1 : t ≠ "pandas.Series") (h2 : t ≠ "pandas.DataFrame") :
    deserializeValue env
      (.vdict [("_type", .prim (.pstr t)), ("_module", .prim (.pstr m)),
               ("_data", .vdict fields)]) = .ok (.model t m fields) := by
  rw [deserializeValue]
  simp [lookupKey, h1, h2, hmem]

/-- Decoding the envelope the serializer produces for a `pandas.Series`
rebuilds the Series. -/
theorem deserialize_series_envelope (env : List (String × String))
    (xs idx : List Value) (nm : Value) :
    deserializeValue env
      (.vdict [("_type", .prim (.pstr "pandas.Series")),
               ("_data", .vdict [("values", .vlist xs), ("index", .vlist idx),
                                 ("name", nm)])]) = .ok (.series xs idx nm) := by
  rw [deserializeValue]
  simp [lookupKey, decodeSeries]

/-- Decoding the envelope the serializer produces for a `pandas.DataFrame`
rebuilds the DataFrame. -/
theorem deserialize_frame_envelope (env : List (String × String))
    (rows : List (List Value)) (cols idx : List Value) :
    deserializeValue env
      (.vdict [("_type", .prim (.pstr "pandas.DataFrame")),
               ("_data", .vdict [("values", .vlist (rows.map Value.vlist)),
                                 ("columns", .vlist cols),
                                 ("index", .vlist idx)])]) =
      .ok (.frame rows cols idx) := by
  rw [deserializeValue]
  simp [lookupKey, decodeFrame, rowsOf_map_vlist]

/-- Round-trip for every supported value. -/
theorem deserialize_serialize_of_supported (env : List (String × String)) :
    ∀ v, supportedValue env v = true →
      deserializeValue env (serializeValue v) = .ok v := by
  have main : ∀ n v, sizeOf v ≤ n → supportedValue env v = true →
      deserializeValue env (serializeValue v) = .ok v := by
    intro n
    induction n with
    | zero => intro v hv; cases v <;> simp at hv
    | succ n ih =>
      intro v hv hr
      cases v with
      | prim p => rw [serializeValue, deserializeValue]
      | model t m fields =>
        rw [supportedValue] at hr
        simp only [Bool.and_eq_true, Bool.not_eq_true', decide_eq_true_eq,
          decide_eq_false_iff_not] at hr
        rw [serializeValue]
        exact deserialize_model_envelope env t m fields hr.1.1 hr.1.2 hr.2
      | series xs idx nm =>
        rw [serializeValue]
        exact deserialize_series_envelope env xs idx nm
      | frame rows cols idx =>
        rw [serializeValue]
        exact deserialize_frame_envelope env rows cols idx
      | vlist items =>
        rw [serializeValue, deserializeValue]
        rw [deserializeList_roundtrip]
        · rfl
        · intro w hw
          have h1 := List.sizeOf_lt_of_mem hw
          have h2s : sizeOf (Value.vlist items) = 1 + sizeOf items := by simp
          refine ih w (by omega) ?_
          rw [supportedValue] at hr
          exact supportedList_mem hr hw
      | vdict entries =>
        rw [supportedValue, Bool.and_eq_true] at hr
        obtain ⟨hkeys, hentries⟩ := hr
        have hok : deserializeEntries env (serializeEntries entries) = .ok entries := by
          refine deserializeEntries_roundtrip ?_
          intro kv hkv
          have h1 := List.sizeOf_lt_of_mem hkv
          obtain ⟨k, w⟩ := kv
          have h2s : sizeOf (Value.vdict entries) = 1 + sizeOf entries := by simp
          have h3s : sizeOf (k, w) = 1 + sizeOf k + sizeOf w := by simp
          refine ih w (by omega) ?_
          exact supportedEntries_mem hentries hkv
        rw [serializeValue, deserializeValue]
        split
        · rename_i ty data hA hB
          rw [lookupKey_serializeEntries] at hA hB
          rcases hA' : lookupKey entries "_type" with _ | w1 <;> rw [hA'] at hA
          · cases hA
          rcases hB' : lookupKey entries "_data" with _ | w2 <;> rw [hB'] at hB
          · cases hB
          rw [hA', hB'] at hkeys
          simp at hkeys
        · rw [hok]; rfl
  intro v
  exact main (sizeOf v) v le_rfl

/-- `WorkflowState`: the Pydantic state threaded through every step.
Timestamps are modelled as `Nat`, messages as a list of strings (no claim
touches them), and defaults mirror the Python field defaults. -/
structure WState where
  workflow_id : String
  status : String := "pending"
  progress : ℚ := 0
  current_step : String := "initialization"
  started_at : Nat
  completed_at : Option Nat := none
  error_message : Option String := none
  messages : List String := []
  context : List (String × Value) := []
deriving Repr

/-- A workflow step: its unique name and its `execute` body.  A `.error e`
result models `execute` raising an exception with message `e`. -/
structure Step where
  name : String
  run : WState → Except String WState

/-- `WorkflowStep.on_error`: set `status="error"`, copy the message into
`error_message`, return the state otherwise unchanged (it does not re-raise). -/
def stepOnError (s : WState) (e : String) : WState :=
  {s with status := "error", error_message := some e}

/-- The node function built by `BaseWorkflow._create_step_node` for the step
with position `idx` in a pipeline of `total` steps: inside the try block it
sets `current_step`, deserializes the context, runs the step, recomputes
`progress = ((idx+1)/total)*100` and re-serializes the context; any exception
is routed to `on_error` with the state as mutated so far. -/
def stepNode (env : List (String × String)) (total : Nat) (idx : Nat)
    (step : Step) (s : WState) : WState :=
  let s1 := {s with current_step := step.name}
  match deserializeContext env s1.context with
  | .error e => stepOnError s1 e
  | .ok ctx =>
      let s2 := {s1 with context := ctx}
      match step.run s2 with
      | .error e => stepOnError s2 e
      | .ok r =>
          {r with progress := (((idx : ℚ) + 1) / (total : ℚ)) * 100,
                  context := serializeContext r.context}

/-- Run the chain built by `build_graph` over an already enumerated list of
steps: one directed edge from each node to the next, so `ainvoke` applies the
node functions in list order. -/
def runNodes (env : List (String × String)) (total : Nat)
    (steps : List (Nat × Step)) (s : WState) : WState :=
  steps.foldl (fun st is => stepNode env total is.1 is.2 st) s

/-- The compiled linear graph: every step in declaration order, with
`steps.index(step)` equal to its position (step objects are distinct). -/
def runChain (env : List (String × String)) (steps : List Step) (s : WState) :
    WState :=
  runNodes env steps.length steps.enum s

/-- The state stored in the checkpoint after the first `k` nodes have run
(`k = 0` is the serialized initial state handed to `ainvoke`). -/
def chainState (env : List (String × String)) (steps : List Step) (k : Nat)
    (s : WState) : WState :=
  runNodes env steps.length (steps.enum.take k) s

/-- The body of the `try` block of `BaseWorkflow.execute`: serialize the
context, invoke the compiled chain, rebuild the state, deserialize the final
context (a raised exception propagates), then mark the run completed. -/
def runBody (env : List (String × String)) (steps : List Step) (now : Nat)
    (init : WState) : Except String WState := do
  let ser := {init with context := serializeContext init.context}
  let result := runChain env steps ser
  let ctx ← deserializeContext env result.context
  .ok {result with context := ctx, status := "completed", completed_at := some now}

/-- The fresh state built by the `except` branch of `BaseWorkflow.execute`:
only the run id and `started_at` are carried over; the other fields take the
model defaults. -/
def errorStateOf (initial : WState) (e : String) (now : Nat) : WState :=
  { workflow_id := initial.workflow_id, started_at := initial.started_at,
    status := "error", error_message := some e, completed_at := some now }

/-- `BaseWorkflow.execute` around an arbitrary try-block body: set
`status="running"` on the caller's state, run the body, and convert any
exception escaping it into a terminal error state (the function itself never
raises). -/
def engineExecuteCore (body : WState → Except String WState)
    (initial : WState) (now : Nat) : WState :=
  let init := {initial with status := "running"}
  match body init with
  | .ok finalState => finalState
  | .error e => errorStateOf initial e now

/-- `BaseWorkflow.execute` with the concrete chain of a pipeline. -/
def engineExecute (env : List (String × String)) (steps : List Step)
    (initial : WState) (now : Nat) : WState :=
  engineExecuteCore (runBody env steps now) initial now

/-- A Python value returned by a wrapped step function: either a full
`WorkflowState` or some other value. -/
inductive PyVal where
  | st (s : WState)
  | val (v : Value)

/-- `TransformStep.execute`: call the wrapped function; a returned
`WorkflowState` becomes the new state; a returned dict is merged into
`context`; any other return value is stored under the key `"result"`; an
exception raised by the function is re-raised as a `ValueError` naming the
step. -/
def transformExecute (name : String) (f : WState → Except String PyVal)
    (s : WState) : Except String WState :=
  match f s with
  | .error e => .error ("Transformation error in step " ++ name ++ ": " ++ e)
  | .ok (.st s') => .ok s'
  | .ok (.val v) =>
      match v with
      | .vdict m => .ok {s with context := pyDictUpdate s.context m}
      | _ => .ok {s with context := pyDictUpdate s.context [("result", v)]}

/-- The result of the retry loop of `create_retry_step`: the final outcome
(`.error e` models a raised exception), the number of calls made to the
wrapped function, and the list of back-off sleeps in order. -/
structure RetryResult where
  outcome : Except String WState
  calls : Nat
  sleeps : List ℚ
deriving Repr

/-- `return result if isinstance(result, WorkflowState) else state`. -/
def pyResState (r : PyVal) (s : WState) : WState :=
  match r with
  | .st s' => s'
  | .val _ => s

/-- After the loop of `create_retry_step`: re-raise the last error, or raise
`RuntimeError("Retry step failed with no recorded error")` when no iteration
recorded one. -/
def retryFinish (lastError : Option String) (attempt : Nat) (sleeps : List ℚ) :
    RetryResult :=
  match lastError with
  | some e => ⟨.error e, attempt, sleeps⟩
  | none => ⟨.error "Retry step failed with no recorded error", attempt, sleeps⟩

/-- The loop `for attempt in range(max_retries)` of the step built by
`create_retry_step`, entered at iteration `attempt`: call the function
(modelled per call number, so a stateful function is a map from call index to
outcome); on success return its result (or the untouched state when the
result is not a `WorkflowState`); on failure remember the error and, unless
this was the final attempt, sleep `delay * 2^attempt`; after the loop
`retryFinish` re-raises. -/
def retryLoop (f : Nat → Except String PyVal) (s : WState) (maxRetries : Int)
    (delay : ℚ) (attempt : Nat) (lastError : Option String) (sleeps : List ℚ) :
    RetryResult :=
  if attempt < maxRetries.toNat then
    match f attempt with
    | .ok r => ⟨.ok (pyResState r s), attempt + 1, sleeps⟩
    | .error e =>
        retryLoop f s maxRetries delay (attempt + 1) (some e)
          (if (attempt : Int) < maxRetries - 1 then sleeps ++ [delay * 2 ^ attempt]
           else sleeps)
  else
    retryFinish lastError attempt sleeps
termination_by maxRetries.toNat - attempt

/-- `RetryStep.execute` from `create_retry_step`. -/
def retryExecute (f : Nat → Except String PyVal) (s : WState)
    (maxRetries : Int) (delay : ℚ) : RetryResult :=
  retryLoop f s maxRetries delay 0 none []

/-- Running no nodes leaves the state unchanged. -/
theorem chainState_zero (env : List (String × String)) (steps : List Step)
    (s : WState) : chainState env steps 0 s = s := rfl

/-- Unfolding one more node of the chain. -/
theorem chainState_succ (env : List (String × String)) (steps : List Step)
    (k : Nat) (s : WState) (hk : k < steps.length) :
    chainState env steps (k + 1) s =
      stepNode env steps.length k steps[k] (chainState env steps k s) := by
  rw [chainState, chainState]
  rw [List.take_succ]
  rw [List.getElem?_enum]
  rw [List.getElem?_eq_getElem hk]
  simp [runNodes, List.foldl_append]

/-- The full chain is the chain of all `steps.length` nodes. -/
theorem runChain_eq_chainState (env : List (String × String)) (steps : List Step)
    (s : WState) : runChain env steps s = chainState env steps steps.length s := by
  rw [runChain, chainState]
  rw [show steps.enum.take steps.length = steps.enum.take steps.enum.length by
        rw [List.enum_length]]
  rw [List.take_length]

/-- Invariant of a run all of whose steps succeed with re-decodable output
contexts: every stored state keeps a decodable context, and after `k ≥ 1`
nodes its progress is `(k / N) * 100`. -/
theorem chainState_invariant (env : List (String × String)) (steps : List Step)
    (hs : ∀ st ∈ steps, ∀ s, ∃ s', st.run s = .ok s' ∧
        ∃ c, deserializeContext env (serializeContext s'.context) = .ok c) :
    ∀ k (s0 : WState), (∃ c0, deserializeContext env s0.context = .ok c0) →
      k ≤ steps.length →
      (∃ c, deserializeContext env (chainState env steps k s0).context = .ok c) ∧
      (1 ≤ k → (chainState env steps k s0).progress =
        ((k : ℚ) / (steps.length : ℚ)) * 100) := by
  intro k
  induction k with
  | zero =>
    intro s0 h0 _
    rw [chainState_zero]
    exact ⟨h0, by omega⟩
  | succ k ih =>
    intro s0 h0 hk
    have hk' : k < steps.length := by omega
    obtain ⟨hdec, _⟩ := ih s0 h0 (by omega)
    obtain ⟨c, hc⟩ := hdec
    rw [chainState_succ env steps k s0 hk']
    set st := chainState env steps k s0 with hst
    have hmem : steps[k] ∈ steps := List.getElem_mem hk'
    have hstep := hs steps[k] hmem
    simp only [stepNode]
    rw [hc]
    split
    · rename_i e heq
      cases heq
    · rename_i ctx heq
      cases heq
      split
      · rename_i e heq2
        obtain ⟨s', hrun, hd⟩ := hstep _
        rw [hrun] at heq2
        cases heq2
      · rename_i r heq2
        obtain ⟨s', hrun, hd⟩ := hstep _
        rw [hrun] at heq2
        obtain rfl : s' = r := by cases heq2; rfl
        refine ⟨?_, fun _ => ?_⟩
        · simpa using hd
        · show (((k : ℚ) + 1) / (steps.length : ℚ)) * 100 = _
          push_cast
          ring

/-- C5: for every initial state and every exception that escapes the compiled
chain into the engine's `execute` try block, `execute` returns (it is a total
function, it does not raise) a state with `status = "error"`, `error_message`
equal to the exception's message, the original run id and `started_at`, and a
status that is never `"running"`. -/
theorem c5_execute_catches_chain_exception (body : WState → Except String WState)
    (initial : WState) (now : Nat) (e : String)
    (h : body {initial with status := "running"} = .error e) :
    (engineExecuteCore body initial now).status = "error" ∧
    (engineExecuteCore body initial now).error_message = some e ∧
    (engineExecuteCore body initial now).workflow_id = initial.workflow_id ∧
    (engineExecuteCore body initial now).started_at = initial.started_at ∧
    (engineExecuteCore body initial now).status ≠ "running" := by
  simp [engineExecuteCore, h, errorStateOf]

/-- Witness for C5 at a concrete failing chain body. -/
theorem c5_execute_catches_chain_exception_witness :
    (engineExecuteCore (fun _ => .error "boom")
        { workflow_id := "run-1", started_at := 5 } 9).status = "error" ∧
    (engineExecuteCore (fun _ => .error "boom")
        { workflow_id := "run-1", started_at := 5 } 9).error_message = some "boom" ∧
    (engineExecuteCore (fun _ => .error "boom")
        { workflow_id := "run-1", started_at := 5 } 9).workflow_id = "run-1" ∧
    (engineExecuteCore (fun _ => .error "boom")
        { workflow_id := "run-1", started_at := 5 } 9).started_at = 5 ∧
    (engineExecuteCore (fun _ => .error "boom")
        { workflow_id := "run-1", started_at := 5 } 9).status ≠ "running" :=
  c5_execute_catches_chain_exception (fun _ => .error "boom")
    { workflow_id := "run-1", started_at := 5 } 9 "boom" rfl

/-- C6: `TransformStep.execute` returns the wrapped function's result itself
when that result is a full workflow state; otherwise it merges a returned
mapping into the context; otherwise it stores the returned value under the
key `"result"`. -/
theorem c6_transform_execute (name : String) (f : WState → Except String PyVal)
    (s : WState) :
    (∀ s', f s = .ok (.st s') → transformExecute name f s = .ok s') ∧
    (∀ m, f s = .ok (.val (.vdict m)) →
        transformExecute name f s = .ok {s with context := pyDictUpdate s.context m}) ∧
    (∀ v, f s = .ok (.val v) → (∀ m, v ≠ .vdict m) →
        transformExecute name f s =
          .ok {s with context := pyDictUpdate s.context [("result", v)]}) := by
  refine ⟨?_, ?_, ?_⟩
  · intro s' h
    rw [transformExecute, h]
  · intro m h
    rw [transformExecute, h]
  · intro v h hne
    rw [transformExecute, h]
    cases v with
    | vdict m => exact absurd rfl (hne m)
    | prim p => rfl
    | vlist items => rfl
    | model t m fields => rfl
    | series xs idx nm => rfl
    | frame rows cols idx => rfl

/-- Witness for C6: the three branches at concrete inputs. -/
theorem c6_transform_execute_witness :
    transformExecute "t" (fun _ => .ok (.st { workflow_id := "x", started_at := 1 }))
        { workflow_id := "w", started_at := 0 } =
      .ok { workflow_id := "x", started_at := 1 } ∧
    transformExecute "t" (fun _ => .ok (.val (.vdict [("a", .prim (.pint 1))])))
        { workflow_id := "w", started_at := 0 } =
      .ok { workflow_id := "w", started_at := 0,
            context := [("a", .prim (.pint 1))] } ∧
    transformExecute "t" (fun _ => .ok (.val (.prim (.pint 7))))
        { workflow_id := "w", started_at := 0 } =
      .ok { workflow_id := "w", started_at := 0,
            context := [("result", .prim (.pint 7))] } := by
  refine ⟨?_, ?_, ?_⟩
  · exact (c6_transform_execute "t" _ _).1 _ rfl
  · exact (c6_transform_execute "t" _ _).2.1 [("a", .prim (.pint 1))] rfl
  · exact (c6_transform_execute "t" _ _).2.2 (.prim (.pint 7)) rfl
      (fun m h => Value.noConfusion h)

/-- C9: with `max_retries <= 0` the loop `for attempt in range(max_retries)`
never runs, so the retry step never calls the wrapped function (zero calls,
no sleeps) and raises `RuntimeError("Retry step failed with no recorded
error")` because `last_error` is still `None`. -/
theorem c9_retry_nonpositive (f : Nat → Except String PyVal) (s : WState)
    (maxRetries : Int) (delay : ℚ) (h : maxRetries ≤ 0) :
    retryExecute f s maxRetries delay =
      ⟨.error "Retry step failed with no recorded error", 0, []⟩ := by
  rw [retryExecute, retryLoop]
  have h0 : maxRetries.toNat = 0 := Int.toNat_of_nonpos h
  simp [h0, retryFinish]

/-- Witness for C9 at `max_retries = 0`. -/
theorem c9_retry_nonpositive_witness :
    retryExecute (fun _ => .ok (.val (.prim .pnone)))
        { workflow_id := "w", started_at := 0 } 0 1 =
      ⟨.error "Retry step failed with no recorded error", 0, []⟩ :=
  c9_retry_nonpositive _ _ 0 1 (by decide)

/-- C10: a plain mapping that carries both reserved keys `"_type"` and
`"_data"` (with an unrecognized type name and no `"_module"` key) is passed
through unchanged by the serializer, but the deserializer mistakes it for a
tagged envelope and returns only the decoded `"_data"` value, so the
round-trip loses the rest of the mapping. -/
theorem c10_reserved_key_mapping_breaks_roundtrip :
    serializeValue (.vdict [("_type", .prim (.pstr "UnknownModel")),
                            ("_data", .prim (.pint 42))]) =
      .vdict [("_type", .prim (.pstr "UnknownModel")),
              ("_data", .prim (.pint 42))] ∧
    deserializeValue []
        (serializeValue (.vdict [("_type", .prim (.pstr "UnknownModel")),
                                 ("_data", .prim (.pint 42))])) =
      .ok (.prim (.pint 42)) ∧
    (Except.ok (Value.prim (.pint 42)) : Except String Value) ≠
      .ok (.vdict [("_type", .prim (.pstr "UnknownModel")),
                   ("_data", .prim (.pint 42))]) := by
  refine ⟨?_, ?_, ?_⟩
  · simp [serializeValue, serializeEntries]
  · simp [serializeValue, serializeEntries, deserializeValue, lookupKey]
  · simp

/-- The retry loop entered at attempt `a ≤ r`, when the function fails on
every call before `r` and succeeds at call `r < max_retries`: it returns the
success outcome after call `r + 1`, having slept `delay * 2^attempt` after
every failed attempt `a, ..., r-1`. -/
theorem retryLoop_success (f : Nat → Except String PyVal) (s : WState)
    (maxRetries : Int) (delay : ℚ) (r : Nat) (v : PyVal)
    (hr : (r : Int) < maxRetries)
    (hf : ∀ i, i < r → ∃ e, f i = .error e) (hv : f r = .ok v) :
    ∀ d a, r - a = d → a ≤ r → ∀ lastErr sleeps,
      retryLoop f s maxRetries delay a lastErr sleeps =
        ⟨.ok (pyResState v s), r + 1,
         sleeps ++ (List.range (r - a)).map fun i => delay * 2 ^ (a + i)⟩ := by
  intro d
  induction d with
  | zero =>
    intro a hd ha lastErr sleeps
    have haa : a = r := by omega
    subst haa
    rw [retryLoop.eq_def]
    have hlt : a < maxRetries.toNat := Int.lt_toNat.mpr hr
    rw [if_pos hlt, hv]
    simp
  | succ d ih =>
    intro a hd ha lastErr sleeps
    have halt : a < r := by omega
    obtain ⟨e, he⟩ := hf a halt
    rw [retryLoop.eq_def]
    have hlt : a < maxRetries.toNat := Int.lt_toNat.mpr (by omega)
    rw [if_pos hlt, he]
    have hcond : (a : Int) < maxRetries - 1 := by omega
    rw [if_pos hcond]
    show retryLoop f s maxRetries delay (a + 1) (some e)
        (sleeps ++ [delay * 2 ^ a]) = _
    rw [ih (a + 1) (by omega) (by omega)]
    have hrange : r - a = (r - (a + 1)) + 1 := by omega
    rw [hrange, List.range_succ_eq_map]
    simp [List.map_map, Function.comp]
    intro i hi
    left
    omega

/-- The retry loop when every remaining call fails: after exhausting
`range(max_retries)` it re-raises the error of the last call. -/
theorem retryLoop_exhaust (f : Nat → Except String PyVal) (s : WState)
    (maxRetries : Int) (delay : ℚ) (es : Nat → String)
    (hall : ∀ i, i < maxRetries.toNat → f i = .error (es i)) :
    ∀ d a, maxRetries.toNat - a = d + 1 → ∀ lastErr sleeps,
      (retryLoop f s maxRetries delay a lastErr sleeps).outcome =
        .error (es (maxRetries.toNat - 1)) := by
  intro d
  induction d with
  | zero =>
    intro a hd lastErr sleeps
    have ha : a = maxRetries.toNat - 1 := by omega
    have hlt : a < maxRetries.toNat := by omega
    rw [retryLoop.eq_def, if_pos hlt, hall a hlt]
    show (retryLoop f s maxRetries delay (a + 1) (some (es a)) _).outcome = _
    rw [retryLoop.eq_def]
    have hstop : ¬(a + 1 < maxRetries.toNat) := by omega
    rw [if_neg hstop, retryFinish]
    rw [ha]
  | succ d ih =>
    intro a hd lastErr sleeps
    have hlt : a < maxRetries.toNat := by omega
    rw [retryLoop.eq_def, if_pos hlt, hall a hlt]
    show (retryLoop f s maxRetries delay (a + 1) (some (es a)) _).outcome = _
    exact ih (a + 1) (by omega) _ _

/-- C7: the retry step wrapping a function that fails on its first `r` calls
and succeeds on call `r + 1` (with `r < max_retries`) succeeds after exactly
`r + 1` calls, sleeping `delay * 2^attempt` after each failed attempt
`attempt = 0, ..., r-1`; and when all `max_retries` calls fail it re-raises
the last error. -/
theorem c7_retry_success_and_exhaustion (f : Nat → Except String PyVal)
    (s : WState) (maxRetries : Int) (delay : ℚ) :
    (∀ (r : Nat) (v : PyVal), 1 ≤ maxRetries → (r : Int) < maxRetries →
        (∀ i, i < r → ∃ e, f i = .error e) → f r = .ok v →
        retryExecute f s maxRetries delay =
          ⟨.ok (pyResState v s), r + 1,
           (List.range r).map fun i => delay * 2 ^ i⟩) ∧
    (∀ es : Nat → String, 1 ≤ maxRetries →
        (∀ i, i < maxRetries.toNat → f i = .error (es i)) →
        (retryExecute f s maxRetries delay).outcome =
          .error (es (maxRetries.toNat - 1))) := by
  constructor
  · intro r v _ hr hf hv
    rw [retryExecute]
    rw [retryLoop_success f s maxRetries delay r v hr hf hv r 0 (by omega)
        (by omega)]
    simp
  · intro es hmax hall
    rw [retryExecute]
    exact retryLoop_exhaust f s maxRetries delay es hall
      (maxRetries.toNat - 1) 0 (by omega) none []

/-- Witness for C7: a function failing twice then succeeding, with
`max_retries = 3` and `delay = 1`, makes exactly 3 calls and sleeps 1 then 2
seconds; a function that always fails with `max_retries = 2` re-raises the
last error. -/
theorem c7_retry_success_and_exhaustion_witness :
    retryExecute
        (fun n => match n with
          | 0 => .error "e0"
          | 1 => .error "e1"
          | _ => .ok (.val (.prim .pnone)))
        { workflow_id := "w", started_at := 0 } 3 1 =
      ⟨.ok { workflow_id := "w", started_at := 0 }, 3, [1, 2]⟩ ∧
    (retryExecute (fun _ => .error "always")
        { workflow_id := "w", started_at := 0 } 2 1).outcome = .error "always" := by
  constructor
  · have h := (c7_retry_success_and_exhaustion
        (fun n => match n with
          | 0 => .error "e0"
          | 1 => .error "e1"
          | _ => .ok (.val (.prim .pnone)))
        { workflow_id := "w", started_at := 0 } 3 1).1 2 (.val (.prim .pnone))
        (by decide) (by decide)
        (by
          intro i hi
          interval_cases i
          · exact ⟨"e0", rfl⟩
          · exact ⟨"e1", rfl⟩)
        rfl
    rw [h]
    norm_num [List.range_succ, pyResState]
  · exact (c7_retry_success_and_exhaustion (fun _ => .error "always")
      { workflow_id := "w", started_at := 0 } 2 1).2 (fun _ => "always")
      (by decide) (fun i _ => rfl)

/-- C4: in a run whose steps all succeed (returning states whose serialized
contexts decode again), the checkpoint stored after step `k` (1-indexed) of
`N` has `progress = (k / N) * 100`, and the state returned by `execute` has
`progress = 100`, `status = "completed"` and `completed_at` set. -/
theorem c4_progress_bookkeeping (env : List (String × String))
    (steps : List Step) (initial : WState) (now : Nat)
    (hN : 0 < steps.length)
    (h0 : ∃ c0, deserializeContext env (serializeContext initial.context) = .ok c0)
    (hs : ∀ st ∈ steps, ∀ s, ∃ s', st.run s = .ok s' ∧
        ∃ c, deserializeContext env (serializeContext s'.context) = .ok c) :
    (∀ k, 1 ≤ k → k ≤ steps.length →
        (chainState env steps k
            {initial with status := "running",
                          context := serializeContext initial.context}).progress =
          ((k : ℚ) / (steps.length : ℚ)) * 100) ∧
    (engineExecute env steps initial now).progress = 100 ∧
    (engineExecute env steps initial now).status = "completed" ∧
    (engineExecute env steps initial now).completed_at = some now := by
  have hinv := chainState_invariant env steps hs
  have hN1 :=
    hinv steps.length
      {initial with status := "running", context := serializeContext initial.context}
      h0 le_rfl
  obtain ⟨c, hc⟩ := hN1.1
  have hprog := hN1.2 hN
  have hfin : engineExecute env steps initial now =
      {chainState env steps steps.length
          {initial with status := "running",
                        context := serializeContext initial.context} with
        context := c, status := "completed", completed_at := some now} := by
    simp only [engineExecute, engineExecuteCore, runBody, runChain_eq_chainState]
    rw [hc]
    rfl
  refine
    ⟨fun k h1 h2 =>
      (hinv k
        {initial with status := "running", context := serializeContext initial.context}
        h0 h2).2 h1, ?_, ?_, ?_⟩
  · rw [hfin]
    show (chainState env steps steps.length _).progress = 100
    rw [hprog]
    rw [div_self (Nat.cast_ne_zero.mpr (by omega))]
    norm_num
  · rw [hfin]
  · rw [hfin]

/-- Witness for C4: a two-step pipeline whose steps write fixed contexts;
the checkpoint after step 1 reports `progress = 50` and the final state
reports `progress = 100`, `status = "completed"`, `completed_at` set. -/
theorem c4_progress_bookkeeping_witness :
    (chainState []
        [⟨"s1", fun s => .ok {s with context := [("a", .prim (.pint 1))]}⟩,
         ⟨"s2", fun s => .ok {s with context := [("b", .prim (.pint 2))]}⟩] 1
        { workflow_id := "w", started_at := 0, status := "running",
          context := serializeContext [] }).progress = ((1 : ℚ) / (2 : ℚ)) * 100 ∧
    (engineExecute []
        [⟨"s1", fun s => .ok {s with context := [("a", .prim (.pint 1))]}⟩,
         ⟨"s2", fun s => .ok {s with context := [("b", .prim (.pint 2))]}⟩]
        { workflow_id := "w", started_at := 0 } 3).progress = 100 ∧
    (engineExecute []
        [⟨"s1", fun s => .ok {s with context := [("a", .prim (.pint 1))]}⟩,
         ⟨"s2", fun s => .ok {s with context := [("b", .prim (.pint 2))]}⟩]
        { workflow_id := "w", started_at := 0 } 3).status = "completed" ∧
    (engineExecute []
        [⟨"s1", fun s => .ok {s with context := [("a", .prim (.pint 1))]}⟩,
         ⟨"s2", fun s => .ok {s with context := [("b", .prim (.pint 2))]}⟩]
        { workflow_id := "w", started_at := 0 } 3).completed_at = some 3 := by
  have h := c4_progress_bookkeeping []
      [⟨"s1", fun s => .ok {s with context := [("a", .prim (.pint 1))]}⟩,
       ⟨"s2", fun s => .ok {s with context := [("b", .prim (.pint 2))]}⟩]
      { workflow_id := "w", started_at := 0 } 3 (by decide) ⟨[], rfl⟩
      (by
        intro st hst s
        fin_cases hst
        · refine ⟨_, rfl, [("a", .prim (.pint 1))], ?_⟩
          simp [serializeContext, serializeValue, deserializeContext,
                deserializeValue, Except.bind, Bind.bind, Pure.pure, Except.pure]
        · refine ⟨_, rfl, [("b", .prim (.pint 2))], ?_⟩
          simp [serializeContext, serializeValue, deserializeContext,
                deserializeValue, Except.bind, Bind.bind, Pure.pure, Except.pure])
  exact ⟨h.1 1 (by omega) (by decide), h.2.1, h.2.2.1, h.2.2.2⟩

/-- C2 (amended): the codec round-trips every context whose values are
composed of supported shapes — models whose classes resolve, Series,
DataFrames, primitives, and nested lists/dicts of these — provided no plain
mapping carries both reserved keys `"_type"` and `"_data"`. -/
theorem c2_context_roundtrip (env : List (String × String))
    (ctx : List (String × Value))
    (h : ∀ kv ∈ ctx, supportedValue env kv.2 = true) :
    deserializeContext env (serializeContext ctx) = .ok ctx := by
  induction ctx with
  | nil => rfl
  | cons kv tl ih =>
    obtain ⟨k, v⟩ := kv
    have hv := h (k, v) (by simp)
    have htl := ih fun w hw => h w (by simp [hw])
    show deserializeContext env ((k, serializeValue v) :: serializeContext tl) = _
    rw [deserializeContext]
    rw [deserialize_serialize_of_supported env v hv, htl]
    rfl

/-- Witness for C2: a context holding a resolvable model, a Series, a
DataFrame and a nested plain dict round-trips exactly. -/
theorem c2_context_roundtrip_witness :
    deserializeContext [("app.schemas.fund_analysis", "PortfolioSummary")]
        (serializeContext
          [("summary", .model "PortfolioSummary" "app.schemas.fund_analysis"
              [("total_value", .prim (.pfloat 3)), ("holding_count", .prim (.pint 2))]),
           ("prices", .series [.prim (.pfloat 1), .prim (.pfloat 2)]
              [.prim (.pint 0), .prim (.pint 1)] (.prim (.pstr "px"))),
           ("table", .frame [[.prim (.pint 1)], [.prim (.pint 2)]]
              [.prim (.pstr "c")] [.prim (.pint 0), .prim (.pint 1)]),
           ("meta", .vdict [("tags", .vlist [.prim (.pstr "a")]),
                            ("n", .prim (.pint 5))])]) =
      .ok
        [("summary", .model "PortfolioSummary" "app.schemas.fund_analysis"
            [("total_value", .prim (.pfloat 3)), ("holding_count", .prim (.pint 2))]),
         ("prices", .series [.prim (.pfloat 1), .prim (.pfloat 2)]
            [.prim (.pint 0), .prim (.pint 1)] (.prim (.pstr "px"))),
         ("table", .frame [[.prim (.pint 1)], [.prim (.pint 2)]]
            [.prim (.pstr "c")] [.prim (.pint 0), .prim (.pint 1)]),
         ("meta", .vdict [("tags", .vlist [.prim (.pstr "a")]),
                          ("n", .prim (.pint 5))])] :=
  c2_context_roundtrip _ _ (by
    intro kv hkv
    fin_cases hkv <;>
      simp [supportedValue, supportedList, supportedEntries, lookupKey])

/-- Counterexample for C2 as stated: a context value that is a plain mapping
of primitives (hence composed only of supported shapes) but happens to carry
both `"_type"` and `"_data"` keys does not round-trip: decode returns only
the `"_data"` value. -/
theorem c2_context_roundtrip_counterexample :
    deserializeContext []
        (serializeContext
          [("payload", .vdict [("_type", .prim (.pstr "Mystery")),
                               ("_data", .prim (.pint 7))])]) =
      .ok [("payload", .prim (.pint 7))] ∧
    (Except.ok [("payload", Value.prim (.pint 7))] :
        Except String (List (String × Value))) ≠
      .ok [("payload", .vdict [("_type", .prim (.pstr "Mystery")),
                               ("_data", .prim (.pint 7))])] := by
  constructor
  · simp [serializeContext, serializeValue, serializeEntries, deserializeContext,
          deserializeValue, lookupKey, Except.bind, Bind.bind, Pure.pure,
          Except.pure]
  · simp

/-- C8 (amended): for an envelope whose type name does not resolve, the
decoder does not raise on the resolution failure: it logs and returns the
result of recursively decoding the `"_data"` field — which is the raw data
itself whenever the data carries no nested reserved-key mapping. -/
theorem c8_unresolvable_envelope_fallback (env : List (String × String))
    (entries : List (String × Value)) (t m : String) (data : Value)
    (hty : lookupKey entries "_type" = some (.prim (.pstr t)))
    (hdata : lookupKey entries "_data" = some data)
    (hmod : lookupKey entries "_module" = some (.prim (.pstr m)))
    (hres : (m, t) ∉ env)
    (h1 : t ≠ "pandas.Series") (h2 : t ≠ "pandas.DataFrame") :
    deserializeValue env (.vdict entries) = deserializeValue env data ∧
    (noReservedKeys data = true →
        deserializeValue env (.vdict entries) = .ok data) := by
  have hmain : deserializeValue env (.vdict entries) = deserializeValue env data := by
    rw [deserializeValue]
    split
    · rename_i ty d hA hB
      rw [hty] at hA
      rw [hdata] at hB
      cases hA
      cases hB
      simp [h1, h2, hmod, hres]
    · rename_i hno
      exact (hno _ _ hty hdata).elim
  exact ⟨hmain, fun hnr => hmain.trans (deserializeValue_of_noReserved env data hnr)⟩

/-- Witness for C8: an envelope naming a class that no longer resolves, with
plain data, decodes to exactly that raw data. -/
theorem c8_unresolvable_envelope_fallback_witness :
    deserializeValue []
        (.vdict [("_type", .prim (.pstr "GoneModel")),
                 ("_module", .prim (.pstr "app.gone")),
                 ("_data", .vdict [("x", .prim (.pint 5))])]) =
      .ok (.vdict [("x", .prim (.pint 5))]) :=
  (c8_unresolvable_envelope_fallback []
      [("_type", .prim (.pstr "GoneModel")),
       ("_module", .prim (.pstr "app.gone")),
       ("_data", .vdict [("x", .prim (.pint 5))])] "GoneModel" "app.gone"
      (.vdict [("x", .prim (.pint 5))]) rfl rfl rfl (by simp)
      (by decide) (by decide)).2
    (by simp [noReservedKeys, noReservedEntries, lookupKey])

/-- Counterexample for C8 as stated: when the unresolvable envelope's data
itself contains a (pandas) envelope, the decoder returns a reconstructed
object, not the raw `"_data"` field. -/
theorem c8_fallback_is_not_raw_data :
    deserializeValue []
        (.vdict [("_type", .prim (.pstr "Gone")),
                 ("_module", .prim (.pstr "mod")),
                 ("_data", .vdict [("_type", .prim (.pstr "pandas.Series")),
                                   ("_data", .vdict [("values", .vlist [.prim (.pint 1)]),
                                                     ("index", .vlist [.prim (.pint 0)]),
                                                     ("name", .prim .pnone)])])]) =
      .ok (.series [.prim (.pint 1)] [.prim (.pint 0)] (.prim .pnone)) ∧
    (Except.ok (Value.series [.prim (.pint 1)] [.prim (.pint 0)] (.prim .pnone)) :
        Except String Value) ≠
      .ok (.vdict [("_type", .prim (.pstr "pandas.Series")),
                   ("_data", .vdict [("values", .vlist [.prim (.pint 1)]),
                                     ("index", .vlist [.prim (.pint 0)]),
                                     ("name", .prim .pnone)])]) := by
  constructor
  · simp [deserializeValue, decodeSeries, lookupKey]
  · simp

/-- C1 (code evaluation): in the pipeline `[A, B]` where `A` raises `"boom"`
and `B` succeeds, the engine still executes `B` on the error-marked state and
`execute` returns `status = "completed"` with `current_step = "B"`,
`progress = 100` and `B`'s context write present — not the terminal error
state the claim describes. -/
theorem c1_failed_step_run_still_completes :
    engineExecute []
        [⟨"A", fun _ => .error "boom"⟩,
         ⟨"B", fun s => .ok {s with context := setKey s.context "b" (.prim (.pint 1))}⟩]
        { workflow_id := "w", started_at := 0 } 7 =
      { workflow_id := "w", status := "completed", progress := 100,
        current_step := "B", started_at := 0, completed_at := some 7,
        error_message := some "boom", messages := [],
        context := [("b", .prim (.pint 1))] } := by
  simp [engineExecute, engineExecuteCore, runBody, runChain, runNodes, chainState,
        stepNode, stepOnError, deserializeContext, deserializeValue,
        serializeContext, serializeValue, setKey, errorStateOf, Except.bind,
        Bind.bind, Pure.pure, Except.pure, List.enum, List.enumFrom]

/-- C3 (code evaluation): after step `"first"` fails, the stored state is
terminal (`status = "error"`) with an unchanged empty context, yet the next
node still executes step `"second"` on it and mutates its context. -/
theorem c3_terminal_error_state_still_mutated :
    (stepNode [] 2 0 ⟨"first", fun _ => .error "crash"⟩
        { workflow_id := "r", started_at := 0, status := "running" }).status =
      "error" ∧
    (stepNode [] 2 0 ⟨"first", fun _ => .error "crash"⟩
        { workflow_id := "r", started_at := 0, status := "running" }).context = [] ∧
    (stepNode [] 2 1
        ⟨"second",
         fun s => .ok {s with context := setKey s.context "written" (.prim (.pint 2))}⟩
        (stepNode [] 2 0 ⟨"first", fun _ => .error "crash"⟩
          { workflow_id := "r", started_at := 0, status := "running" })).current_step =
      "second" ∧
    (stepNode [] 2 1
        ⟨"second",
         fun s => .ok {s with context := setKey s.context "written" (.prim (.pint 2))}⟩
        (stepNode [] 2 0 ⟨"first", fun _ => .error "crash"⟩
          { workflow_id := "r", started_at := 0, status := "running" })).context =
      [("written", .prim (.pint 2))] := by
  refine ⟨?_, ?_, ?_, ?_⟩ <;>
    simp [stepNode, stepOnError, deserializeContext, deserializeValue,
          serializeContext, serializeValue, setKey, Except.bind, Bind.bind,
          Pure.pure, Except.pure]
